import Mathlib

/-!
Shallow embedding of the `top50` daily stock-digest scripts
(`src/main.py` and `src/update_tickers.py`) and proofs of the
specification claims about them.

Numeric values (closing prices, market capitalisations) are modelled as
exact rationals; `round(x, 2)` is modelled as round-half-to-even on the
exact value, which is Python's documented rounding mode.  External
effects (the quote download, the news/LLM/email HTTP requests, the
ticker file) are modelled as explicit oracle parameters and an explicit
effect trace.
-/

namespace Top50

/-- A record of the ticker universe file `tickers.json`
(`symbol`, `name`, `industry`), as consumed by `load_tickers` and
produced by `update_top_50_tickers`. -/
structure TickerRecord where
  symbol : String
  name : String
  industry : String
deriving DecidableEq, Repr

/-- One row of the snapshot DataFrame built by `fetch_market_data`
(`main.py` lines 86-92). -/
structure QuoteRow where
  symbol : String
  name : String
  industry : String
  close : ℚ
  pct_change : ℚ
deriving DecidableEq, Repr

/-- Round-half-to-even to the nearest integer: the rounding used by
Python's built-in `round` (idealised over exact rationals). -/
def roundHalfEven (q : ℚ) : ℤ :=
  let f : ℤ := ⌊q⌋
  if q - f < 1 / 2 then f
  else if 1 / 2 < q - f then f + 1
  else if f % 2 = 0 then f else f + 1

/-- Python's `round(x, 2)` over exact rationals. -/
def round2 (q : ℚ) : ℚ := (roundHalfEven (q * 100) : ℚ) / 100

/-- The per-symbol price data returned by the `yf.download` call in
`fetch_market_data`: `none` if the symbol is absent from the downloaded
columns (`main.py` line 71), otherwise the daily rows in chronological
order, where an entry `none` is a row dropped by `dropna()` (a row
containing a missing value) and `some c` is a valid row with close `c`. -/
def PriceData : Type := String → Option (List (Option ℚ))

/-- The body of the per-ticker loop of `fetch_market_data`
(`main.py` lines 60-95): drop missing rows, require at least two valid
rows, take the last two closes and build the row.  A zero previous
close makes the Python division raise `ZeroDivisionError`, which the
surrounding `except` swallows, skipping the symbol; hence the explicit
`prev_close = 0` skip. -/
def processTicker (data : PriceData) (t : TickerRecord) : Option QuoteRow :=
  match data t.symbol with
  | none => none
  | some series =>
    let df := series.filterMap id
    match df.reverse with
    | close :: prev_close :: _ =>
      if prev_close = 0 then none
      else
        some { symbol := t.symbol, name := t.name, industry := t.industry,
               close := round2 close,
               pct_change := round2 ((close - prev_close) / prev_close * 100) }
    | _ => none

/-- Comparison used to model
`df_result.sort_values(by="pct_change", ascending=False)`. -/
def pctDesc (a b : QuoteRow) : Bool := decide (b.pct_change ≤ a.pct_change)

/-- `fetch_market_data` (`main.py` lines 35-100): build one row per
ticker that survives the per-symbol loop, then sort by `pct_change`
descending. -/
def fetch_market_data (tickers : List TickerRecord) (data : PriceData) :
    List QuoteRow :=
  (tickers.filterMap (processTicker data)).mergeSort pctDesc

/-- The valid (non-missing) closes of a symbol's downloaded series, in
chronological order: the closes surviving `dropna()`. -/
def validCloses (data : PriceData) (s : String) : List ℚ :=
  match data s with
  | none => []
  | some series => series.filterMap id

/-- The last two valid closes of a symbol, as `(prevClose, close)`,
when at least two valid rows exist. -/
def lastTwoCloses (data : PriceData) (s : String) : Option (ℚ × ℚ) :=
  match (validCloses data s).reverse with
  | close :: prev_close :: _ => some (prev_close, close)
  | _ => none

/-- One article of the Newsdata.io response's `results` array, as read
by `fetch_news` (`main.py` lines 122-128): `a.get("title")` and
`a.get("source_id", "Unknown")`. -/
structure Article where
  title : Option String
  source_id : Option String
deriving DecidableEq, Repr

/-- `fetch_news` (`main.py` lines 102-132).  The request asks the
provider for `size = 15` articles but the code never truncates the
response itself.  `newsKey = none` models a falsy `NEWSDATA_API_KEY`
(no request is made); `resp = none` models a request/parse error
(caught, returning `[]`); `resp = some articles` models a successful
response with the given `results` array. -/
def fetch_news (newsKey : Option String) (resp : Option (List Article)) :
    List String :=
  match newsKey with
  | none => []
  | some _ =>
    match resp with
    | none => []
    | some articles =>
      articles.filterMap fun a =>
        a.title.map fun t => t ++ " (" ++ a.source_id.getD "Unknown" ++ ")"

/-- The `size` parameter `fetch_news` sends to the news provider
(`main.py` line 115). -/
def news_request_size : Nat := 15

/-- The fallback string `call_llm_analysis` returns when no
`GEMINI_API_KEY` is configured (`main.py` line 152). -/
def fallback_no_key : String := "（未配置 GEMINI_API_KEY，暂无法生成 AI 分析。）"

/-- The fallback string `call_llm_analysis` returns when the request or
the parsing of the response fails (`main.py` line 208). -/
def fallback_error : String := "（AI 分析生成失败，请检查 LLM 配置或稍后重试。）"

/-- Network effects of one run, in the order they are attempted. -/
inductive Effect where
  | quoteFetch
  | newsFetch
  | llmCall
  | emailSend
deriving DecidableEq, Repr

/-- `call_llm_analysis` (`main.py` lines 147-208), returning the
narrative text together with the trace of network calls it makes.
`geminiKey = none` models a falsy `GEMINI_API_KEY`; `llmResp = none`
models a failed request or unparsable response (caught); `some content`
a successful completion.  The `df` and `news` arguments only shape the
prompt, which is opaque here. -/
def call_llm_analysis (geminiKey : Option String) (llmResp : Option String)
    (df : List QuoteRow) (news : List String) : String × List Effect :=
  match geminiKey with
  | none => (fallback_no_key, [])
  | some _ =>
    match llmResp with
    | some content => (content.trim, [Effect.llmCall])
    | none => (fallback_error, [Effect.llmCall])

/-- `send_email` (`main.py` lines 371-400): a missing `RESEND_API_KEY`
skips the send, otherwise one request to the email provider is made. -/
def send_email (resendKey : Option String) : List Effect :=
  match resendKey with
  | none => []
  | some _ => [Effect.emailSend]

/-- JSON values, as stored in `tickers.json` and produced by
`json.load` / consumed by `json.dump`. -/
inductive Json where
  | null
  | bool (b : Bool)
  | num (q : ℚ)
  | str (s : String)
  | arr (items : List Json)
  | obj (fields : List (String × Json))

/-- Python truthiness of a JSON value (`if not tickers`). -/
def jsonFalsy : Json → Bool
  | .null => true
  | .bool b => !b
  | .num q => decide (q = 0)
  | .str s => s.isEmpty
  | .arr items => items.isEmpty
  | .obj fields => fields.isEmpty

/-- Dictionary lookup on a JSON object (`t["symbol"]` etc.); `none` on
a missing key or a non-object, where Python raises. -/
def jsonGet (j : Json) (k : String) : Option Json :=
  match j with
  | .obj fields =>
    match fields.filter (fun kv => kv.1 = k) with
    | [] => none
    | kv :: _ => some kv.2
  | _ => none

/-- The JSON encoding of one output record written by
`update_top_50_tickers` (`update_tickers.py` lines 56-59). -/
def encodeRecord (r : TickerRecord) : Json :=
  .obj [("symbol", .str r.symbol), ("name", .str r.name),
        ("industry", .str r.industry)]

/-- The JSON value `json.dump` writes to `tickers.json`
(`update_tickers.py` lines 61-62): the array of stripped records. -/
def dumpTickers (l : List TickerRecord) : Json := .arr (l.map encodeRecord)

/-- `load_tickers` (`main.py` lines 26-33): `[]` when the file is
missing, otherwise the parsed JSON value.  The file is modelled as
`none` (absent) or `some j` (present with parsed content `j`). -/
def load_tickers (file : Option Json) : Json :=
  match file with
  | none => .arr []
  | some j => j

/-- Reading one ticker entry as the `{symbol, name, industry}` record
the pipeline extracts from it (`main.py` lines 61-63).  `none` when a
field is missing or not a string, where the Python accesses fail or
yield a value outside the record type. -/
def decodeRecord (j : Json) : Option TickerRecord :=
  match jsonGet j "symbol", jsonGet j "name", jsonGet j "industry" with
  | some (.str s), some (.str n), some (.str i) => some ⟨s, n, i⟩
  | _, _, _ => none

/-- The `{symbol, name, industry}` records represented by the ticker
file: the entries of its top-level array that decode as records. -/
def readTickerRecords (file : Option Json) : List TickerRecord :=
  match load_tickers file with
  | .arr items => items.filterMap decodeRecord
  | _ => []

/-- The ticker entries of the loaded JSON as records, failing
(`none`, an unhandled exception in `main.py` lines 61-63) as soon as
one entry lacks a string `symbol`, `name` or `industry` field. -/
def decodeTickers (j : Json) : Option (List TickerRecord) :=
  match j with
  | .arr items => items.mapM decodeRecord
  | _ => none

/-- The environment-variable configuration of `main.py` (lines 11-15);
`none` models an unset or empty variable. -/
structure Config where
  resendKey : Option String
  geminiKey : Option String
  newsKey : Option String
deriving Repr

/-- `main` (`main.py` lines 404-437), as the trace of network calls of
one run: `some effects` for a normal (zero-exit) completion and `none`
for an unhandled exception (a ticker entry that is not a proper
record).  The oracles `data`, `newsResp` and `llmResp` stand for the
responses of the quote, news and language-model providers. -/
def mainRun (file : Option Json) (cfg : Config) (data : PriceData)
    (newsResp : Option (List Article)) (llmResp : Option String) :
    Option (List Effect) :=
  let tickersJson := load_tickers file
  if jsonFalsy tickersJson then some []
  else
    match decodeTickers tickersJson with
    | none => none
    | some tickers =>
      let df := fetch_market_data tickers data
      let e1 : List Effect := [Effect.quoteFetch]
      if df.isEmpty then some e1
      else
        let e2 := e1 ++ (match cfg.newsKey with
                         | none => [] | some _ => [Effect.newsFetch])
        let news := fetch_news cfg.newsKey newsResp
        let analysis := call_llm_analysis cfg.geminiKey llmResp df news
        let e3 := e2 ++ analysis.2
        some (e3 ++ send_email cfg.resendKey)

/-- The fields `update_top_50_tickers` reads from `yf.Ticker(s).info`
(`update_tickers.py` lines 30-35), after the `.get` defaults:
`marketCap` defaults to `0`, `longName` and `industry` to the empty
string. -/
structure TickerInfo where
  marketCap : Int
  longName : String
  industry : String
deriving DecidableEq, Repr

/-- One entry of `data_list` in `update_top_50_tickers`
(`update_tickers.py` lines 32-37). -/
structure CandRecord where
  symbol : String
  name : String
  industry : String
  marketCap : Int
deriving DecidableEq, Repr

/-- Dropping the `marketCap` field (`update_tickers.py` lines 56-59). -/
def stripCand (c : CandRecord) : TickerRecord :=
  { symbol := c.symbol, name := c.name, industry := c.industry }

/-- The `data_list` built by the lookup loop of `update_top_50_tickers`
(`update_tickers.py` lines 22-50): one candidate per base symbol whose
`info` lookup succeeds (`lookup` returns `some`; `none` models a raised
exception, logged and skipped) and whose `marketCap` is truthy
(nonzero).  Symbols are normalised `.`→`-` for the lookup and back
`-`→`.` in the stored record (lines 19 and 33). -/
def candidates (baseSymbols : List String)
    (lookup : String → Option TickerInfo) : List CandRecord :=
  (baseSymbols.map (fun t => t.replace "." "-")).filterMap fun symbol =>
    match lookup symbol with
    | none => none
    | some info =>
      if info.marketCap = 0 then none
      else
        some { symbol := symbol.replace "-" ".", name := info.longName,
               industry := info.industry, marketCap := info.marketCap }

/-- Comparison used to model
`data_list.sort(key=lambda x: x["marketCap"], reverse=True)`. -/
def capDesc (a b : CandRecord) : Bool := decide (b.marketCap ≤ a.marketCap)

/-- `update_top_50_tickers` (`update_tickers.py` lines 8-64), as a
function from the fetched base list and the per-symbol lookup oracle to
the list of records written to `tickers.json`; `baseList = none` models
a failure of the initial S&P 500 fetch (lines 10-16), on which the
function returns without writing (`none`). -/
def update_top_50_tickers (baseList : Option (List String))
    (lookup : String → Option TickerInfo) : Option (List TickerRecord) :=
  match baseList with
  | none => none
  | some baseSymbols =>
    let data_list := candidates baseSymbols lookup
    let sorted := data_list.mergeSort capDesc
    let top_50 := sorted.take 50
    some (top_50.map stripCand)

/-- The effect of one refresher run on the ticker file: a failed base
fetch leaves the file as it was; otherwise the file is overwritten with
the dumped output records. -/
def runRefresh (fs : Option Json) (baseList : Option (List String))
    (lookup : String → Option TickerInfo) : Option Json :=
  match update_top_50_tickers baseList lookup with
  | none => fs
  | some recs => some (dumpTickers recs)

/-! ## Helper lemmas -/

theorem roundHalfEven_intCast (n : ℤ) : roundHalfEven (n : ℚ) = n := by
  simp [roundHalfEven]

theorem round2_eq_of_mul_eq (q : ℚ) (n : ℤ) (h : q * 100 = (n : ℚ)) :
    round2 q = (n : ℚ) / 100 := by
  rw [round2, h, roundHalfEven_intCast]

theorem round2_round2 (q : ℚ) : round2 (round2 q) = round2 q := by
  have h : round2 q * 100 = ((roundHalfEven (q * 100) : ℤ) : ℚ) := by
    rw [round2]
    field_simp
  rw [round2_eq_of_mul_eq _ _ h, round2]

theorem mem_fetch_market_data {tickers : List TickerRecord} {data : PriceData}
    {row : QuoteRow} :
    row ∈ fetch_market_data tickers data ↔
      ∃ t, t ∈ tickers ∧ processTicker data t = some row := by
  rw [fetch_market_data, List.mem_mergeSort, List.mem_filterMap]

theorem processTicker_eq_some_iff {data : PriceData} {t : TickerRecord}
    {row : QuoteRow} :
    processTicker data t = some row ↔
      ∃ p c, lastTwoCloses data t.symbol = some (p, c) ∧ p ≠ 0 ∧
        row = { symbol := t.symbol, name := t.name, industry := t.industry,
                close := round2 c,
                pct_change := round2 ((c - p) / p * 100) } := by
  cases hd : data t.symbol with
  | none => simp [processTicker, lastTwoCloses, validCloses, hd]
  | some series =>
    cases hrev : (series.filterMap id).reverse with
    | nil => simp [processTicker, lastTwoCloses, validCloses, hd, hrev]
    | cons close rest =>
      cases rest with
      | nil => simp [processTicker, lastTwoCloses, validCloses, hd, hrev]
      | cons prev_close rest2 =>
        by_cases hp : prev_close = 0
        · simp [processTicker, lastTwoCloses, validCloses, hd, hrev, hp]
        · simp only [processTicker, lastTwoCloses, validCloses, hd, hrev,
            if_neg hp, Option.some.injEq]
          constructor
          · intro h
            exact ⟨prev_close, close, rfl, hp, h.symm⟩
          · rintro ⟨p, c, hpc, hp0, h⟩
            simp only [Option.some.injEq, Prod.mk.injEq] at hpc
            obtain ⟨rfl, rfl⟩ := hpc
            exact h.symm

theorem lastTwoCloses_isSome_of_two_le {data : PriceData} {s : String}
    (h : 2 ≤ (validCloses data s).length) :
    ∃ p c, lastTwoCloses data s = some (p, c) := by
  rw [lastTwoCloses]
  rw [← List.length_reverse] at h
  rcases hrev : (validCloses data s).reverse with _ | ⟨c, _ | ⟨p, rest⟩⟩ <;>
    rw [hrev] at h
  · simp at h
  · simp at h
  · exact ⟨p, c, rfl⟩

theorem two_le_of_lastTwoCloses_eq_some {data : PriceData} {s : String}
    {p c : ℚ} (h : lastTwoCloses data s = some (p, c)) :
    2 ≤ (validCloses data s).length := by
  rw [lastTwoCloses] at h
  rw [← List.length_reverse]
  rcases hrev : (validCloses data s).reverse with _ | ⟨c', _ | ⟨p', rest⟩⟩ <;>
    rw [hrev] at h
  · simp at h
  · simp at h
  · simp

/-! ## Claims -/

/-- C1: for every ticker whose fetched price series contains at least
two valid (non-NaN) rows, the `pct_change` field of its row in the
snapshot produced by `fetch_market_data` equals
`(close - prevClose) / prevClose * 100` computed from the latest two
valid closes, rounded to two decimal places. -/
theorem claim_C1 (tickers : List TickerRecord) (data : PriceData)
    (t : TickerRecord) (ht : t ∈ tickers)
    (h2 : 2 ≤ (validCloses data t.symbol).length)
    (p c : ℚ) (hpc : lastTwoCloses data t.symbol = some (p, c))
    (row : QuoteRow) (hrow : row ∈ fetch_market_data tickers data)
    (hsym : row.symbol = t.symbol) :
    row.pct_change = round2 ((c - p) / p * 100) := by
  obtain ⟨t', ht', hpt⟩ := mem_fetch_market_data.mp hrow
  obtain ⟨p', c', hpc', hp', hrow_eq⟩ := processTicker_eq_some_iff.mp hpt
  subst hrow_eq
  simp at hsym
  rw [hsym] at hpc'
  rw [hpc] at hpc'
  simp only [Option.some.injEq, Prod.mk.injEq] at hpc'
  obtain ⟨rfl, rfl⟩ := hpc'
  rfl

/-- C2: the snapshot returned by `fetch_market_data` is sorted by
`pct_change` in descending order (with no guaranteed order among equal
values). -/
theorem claim_C2 (tickers : List TickerRecord) (data : PriceData) :
    (fetch_market_data tickers data).Pairwise
      (fun a b => b.pct_change ≤ a.pct_change) := by
  have htrans : ∀ a b c : QuoteRow, pctDesc a b → pctDesc b c → pctDesc a c := by
    intro a b c hab hbc
    simp only [pctDesc, decide_eq_true_eq] at *
    exact le_trans hbc hab
  have htotal : ∀ a b : QuoteRow, pctDesc a b || pctDesc b a := by
    intro a b
    simpa [pctDesc] using le_total b.pct_change a.pct_change
  have h := List.sorted_mergeSort htrans htotal
    (tickers.filterMap (processTicker data))
  unfold fetch_market_data
  exact h.imp fun hab => by simpa [pctDesc] using hab

/-- A concrete ticker record used to instantiate proved claims. -/
def tickW : TickerRecord := ⟨"AAPL", "Apple Inc.", "Consumer Electronics"⟩

/-- Concrete price data: symbol AAPL has two valid rows with closes 1
and 2. -/
def dataW : PriceData := fun s =>
  if s = "AAPL" then some [some 1, some 2] else none

/-- The snapshot row `fetch_market_data [tickW] dataW` produces. -/
def rowW : QuoteRow :=
  { symbol := "AAPL", name := "Apple Inc.", industry := "Consumer Electronics",
    close := round2 2, pct_change := round2 ((2 - 1) / 1 * 100) }

theorem rowW_mem : rowW ∈ fetch_market_data [tickW] dataW := by
  simp [fetch_market_data, processTicker, rowW, tickW, dataW]

theorem claim_C1_witness :
    tickW ∈ [tickW] ∧ 2 ≤ (validCloses dataW tickW.symbol).length ∧
    lastTwoCloses dataW tickW.symbol = some (1, 2) ∧
    rowW ∈ fetch_market_data [tickW] dataW ∧ rowW.symbol = tickW.symbol ∧
    rowW.pct_change = round2 ((2 - 1) / 1 * 100) :=
  ⟨List.mem_singleton.mpr rfl, by simp [validCloses, dataW, tickW], rfl,
   rowW_mem, rfl,
   claim_C1 [tickW] dataW tickW (List.mem_singleton.mpr rfl)
     (by simp [validCloses, dataW, tickW]) 1 2 rfl rowW rowW_mem rfl⟩

def tick3A : TickerRecord := ⟨"AA", "Alcoa", "Aluminum"⟩

def tick3B : TickerRecord := ⟨"BB", "BancFirst", "Banks"⟩

/-- Price data where symbol AA has a single valid row and symbol BB has
two valid rows whose earlier close is zero. -/
def data3 : PriceData := fun s =>
  if s = "AA" then some [some 1]
  else if s = "BB" then some [some 0, some 1]
  else none

/-- C3 counterexample: symbol BB has two valid rows (so the claim says
its row appears in the snapshot), but its previous close is 0, the
Python division raises `ZeroDivisionError`, the `except` swallows it and
the symbol is skipped: no row with symbol BB is in the snapshot. -/
theorem claim_C3_counterexample :
    2 ≤ (validCloses data3 "BB").length ∧
    ∀ row ∈ fetch_market_data [tick3A, tick3B] data3, row.symbol ≠ "BB" := by
  constructor
  · simp [validCloses, data3]
  · intro row hrow
    simp [fetch_market_data, processTicker, tick3A, tick3B, data3] at hrow

/-- C3 (amended): a symbol with fewer than two valid rows is absent
from the snapshot, and every ticker with at least two valid rows whose
previous close is nonzero still appears; neither case aborts the run. -/
theorem claim_C3 (tickers : List TickerRecord) (data : PriceData)
    (s : String) (hs : (validCloses data s).length < 2)
    (t : TickerRecord) (ht : t ∈ tickers)
    (p c : ℚ) (hpc : lastTwoCloses data t.symbol = some (p, c)) (hp : p ≠ 0) :
    (∀ row ∈ fetch_market_data tickers data, row.symbol ≠ s) ∧
    ∃ row ∈ fetch_market_data tickers data, row.symbol = t.symbol := by
  constructor
  · intro row hrow hsym
    obtain ⟨t', ht', hpt⟩ := mem_fetch_market_data.mp hrow
    obtain ⟨p', c', hpc', _, hrow_eq⟩ := processTicker_eq_some_iff.mp hpt
    subst hrow_eq
    simp at hsym
    rw [hsym] at hpc'
    have := two_le_of_lastTwoCloses_eq_some hpc'
    omega
  · exact ⟨{ symbol := t.symbol, name := t.name, industry := t.industry,
             close := round2 c, pct_change := round2 ((c - p) / p * 100) },
      mem_fetch_market_data.mpr
        ⟨t, ht, processTicker_eq_some_iff.mpr ⟨p, c, hpc, hp, rfl⟩⟩, rfl⟩

/-- Price data where symbol AA has a single valid row and symbol BB has
two valid rows with nonzero closes. -/
def data3W : PriceData := fun s =>
  if s = "AA" then some [some 1]
  else if s = "BB" then some [some 1, some 2]
  else none

theorem claim_C3_witness :
    (validCloses data3W "AA").length < 2 ∧ tick3B ∈ [tick3A, tick3B] ∧
    lastTwoCloses data3W tick3B.symbol = some (1, 2) ∧ (1 : ℚ) ≠ 0 ∧
    (∀ row ∈ fetch_market_data [tick3A, tick3B] data3W, row.symbol ≠ "AA") ∧
    ∃ row ∈ fetch_market_data [tick3A, tick3B] data3W,
      row.symbol = tick3B.symbol :=
  ⟨by simp [validCloses, data3W], by simp [tick3A, tick3B], rfl, by norm_num,
   (claim_C3 [tick3A, tick3B] data3W "AA" (by simp [validCloses, data3W])
     tick3B (by simp [tick3A, tick3B]) 1 2 rfl (by norm_num)).1,
   (claim_C3 [tick3A, tick3B] data3W "AA" (by simp [validCloses, data3W])
     tick3B (by simp [tick3A, tick3B]) 1 2 rfl (by norm_num)).2⟩

/-- C10: every row of the snapshot corresponds to exactly one record of
the input ticker list, carrying that record's symbol, name and industry
unchanged; its close is the 2-decimal rounding of the latest valid
close and its pct_change the 2-decimal rounding of the raw percent
change, so both fields are fixed points of 2-decimal rounding. -/
theorem claim_C10 (tickers : List TickerRecord) (data : PriceData)
    (row : QuoteRow) (hrow : row ∈ fetch_market_data tickers data) :
    (∃! t : TickerRecord, t ∈ tickers ∧ t.symbol = row.symbol ∧
       t.name = row.name ∧ t.industry = row.industry) ∧
    (∃ p c : ℚ, lastTwoCloses data row.symbol = some (p, c) ∧
       row.close = round2 c ∧
       row.pct_change = round2 ((c - p) / p * 100)) ∧
    round2 row.close = row.close ∧ round2 row.pct_change = row.pct_change := by
  obtain ⟨t, ht, hpt⟩ := mem_fetch_market_data.mp hrow
  obtain ⟨p, c, hpc, hp, hrow_eq⟩ := processTicker_eq_some_iff.mp hpt
  subst hrow_eq
  refine ⟨⟨t, ⟨ht, rfl, rfl, rfl⟩, ?_⟩, ⟨p, c, hpc, rfl, rfl⟩,
    round2_round2 _, round2_round2 _⟩
  rintro t' ⟨ht', hs, hn, hi⟩
  cases t
  cases t'
  simp_all

theorem claim_C10_witness :
    rowW ∈ fetch_market_data [tickW] dataW ∧
    round2 rowW.close = rowW.close ∧
    round2 rowW.pct_change = rowW.pct_change :=
  ⟨rowW_mem, (claim_C10 [tickW] dataW rowW rowW_mem).2.2⟩

theorem capDesc_trans :
    ∀ a b c : CandRecord, capDesc a b → capDesc b c → capDesc a c := by
  intro a b c hab hbc
  simp only [capDesc, decide_eq_true_eq] at *
  exact le_trans hbc hab

theorem capDesc_total : ∀ a b : CandRecord, capDesc a b || capDesc b a := by
  intro a b
  simpa [capDesc] using le_total b.marketCap a.marketCap

/-- C4: `update_top_50_tickers` sorts the successfully looked-up
candidates by market capitalisation descending, truncates to the top
50, strips the marketCap field and persists exactly those records by
fully overwriting the ticker file; per-symbol lookup failures are
skipped (never aborting: the base-list case always writes). -/
theorem claim_C4 (baseSymbols : List String)
    (lookup : String → Option TickerInfo) :
    ∃ sorted : List CandRecord,
      sorted.Perm (candidates baseSymbols lookup) ∧
      sorted.Pairwise (fun a b => b.marketCap ≤ a.marketCap) ∧
      update_top_50_tickers (some baseSymbols) lookup =
        some ((sorted.take 50).map stripCand) ∧
      ((sorted.take 50).map stripCand).length ≤ 50 ∧
      ∀ fs, runRefresh fs (some baseSymbols) lookup =
        some (dumpTickers ((sorted.take 50).map stripCand)) := by
  refine ⟨(candidates baseSymbols lookup).mergeSort capDesc,
    List.mergeSort_perm _ _, ?_, rfl, ?_, fun fs => rfl⟩
  · have h := List.sorted_mergeSort capDesc_trans capDesc_total
      (candidates baseSymbols lookup)
    exact h.imp fun hab => by simpa [capDesc] using hab
  · simp only [List.length_map, List.length_take]
    exact Nat.min_le_left _ _

theorem decodeRecord_encodeRecord (r : TickerRecord) :
    decodeRecord (encodeRecord r) = some r := rfl

/-- C5: writing a list of records to the ticker file (as
`update_top_50_tickers` does) and reading it back yields the same set
of records: membership is preserved (here even the list itself is
recovered, so set equality holds). -/
theorem claim_C5 (l : List TickerRecord) (r : TickerRecord) :
    r ∈ readTickerRecords (some (dumpTickers l)) ↔ r ∈ l := by
  have h : readTickerRecords (some (dumpTickers l)) = l := by
    simp only [readTickerRecords, dumpTickers, load_tickers]
    rw [List.filterMap_map]
    have hde : (decodeRecord ∘ encodeRecord) = some := by
      funext r
      exact decodeRecord_encodeRecord r
    rw [hde, List.filterMap_some]
  rw [h]

/-- C6: if fetching the base S&P 500 symbol list fails,
`update_top_50_tickers` returns without writing, and the ticker file is
left unchanged. -/
theorem claim_C6 (fs : Option Json) (lookup : String → Option TickerInfo) :
    update_top_50_tickers none lookup = none ∧ runRefresh fs none lookup = fs :=
  ⟨rfl, rfl⟩

/-- C7: on a missing ticker file or one containing an empty list,
`main` returns normally with no network call to the quote, news,
language-model or email providers. -/
theorem claim_C7 (file : Option Json) (cfg : Config) (data : PriceData)
    (newsResp : Option (List Article)) (llmResp : Option String)
    (h : file = none ∨ file = some (Json.arr [])) :
    mainRun file cfg data newsResp llmResp = some [] := by
  rcases h with h | h <;> subst h <;> rfl

theorem claim_C7_witness :
    mainRun none ⟨none, none, none⟩ (fun _ => none) none none = some [] :=
  claim_C7 none ⟨none, none, none⟩ (fun _ => none) none none (Or.inl rfl)

/-- C8: with no language-model key configured, `call_llm_analysis`
returns the fixed fallback string with no network request, and `main`
still runs to the `send_email` step, which sends or skips depending on
the email credential. -/
theorem claim_C8 (cfg : Config) (hkey : cfg.geminiKey = none)
    (file : Option Json) (data : PriceData)
    (newsResp : Option (List Article)) (llmResp : Option String)
    (tickers : List TickerRecord)
    (hfalsy : jsonFalsy (load_tickers file) = false)
    (hdec : decodeTickers (load_tickers file) = some tickers)
    (hdf : (fetch_market_data tickers data).isEmpty = false) :
    (∀ df news, call_llm_analysis cfg.geminiKey llmResp df news =
      (fallback_no_key, [])) ∧
    ∃ es, mainRun file cfg data newsResp llmResp = some es ∧
      Effect.llmCall ∉ es ∧
      (cfg.resendKey = none → Effect.emailSend ∉ es) ∧
      ∀ k, cfg.resendKey = some k → Effect.emailSend ∈ es := by
  obtain ⟨rk, gk, nk⟩ := cfg
  simp only at hkey
  subst hkey
  constructor
  · intro df news
    rfl
  · have hmain : mainRun file ⟨rk, none, nk⟩ data newsResp llmResp =
        some ([Effect.quoteFetch] ++
          (match nk with | none => [] | some _ => [Effect.newsFetch]) ++
          send_email rk) := by
      simp only [mainRun, hfalsy, hdec, hdf, Bool.false_eq_true, if_false,
        List.isEmpty_eq_true, call_llm_analysis]
      simp
    refine ⟨_, hmain, ?_, ?_, ?_⟩
    · cases nk <;> cases rk <;> simp [send_email]
    · intro hrk
      subst hrk
      cases nk <;> simp [send_email]
    · intro k hrk
      subst hrk
      cases nk <;> simp [send_email]

/-- Concrete environment for the C8 witness: email key present, no
language-model key, news key present. -/
def cfgW : Config := ⟨some "re_key", none, some "nd_key"⟩

/-- Concrete ticker file content for the C8 witness. -/
def fileW : Option Json := some (Json.arr [encodeRecord tickW])

theorem claim_C8_witness :
    cfgW.geminiKey = none ∧
    jsonFalsy (load_tickers fileW) = false ∧
    decodeTickers (load_tickers fileW) = some [tickW] ∧
    (fetch_market_data [tickW] dataW).isEmpty = false ∧
    ((∀ df news, call_llm_analysis cfgW.geminiKey none df news =
        (fallback_no_key, [])) ∧
      ∃ es, mainRun fileW cfgW dataW none none = some es ∧
        Effect.llmCall ∉ es ∧
        (cfgW.resendKey = none → Effect.emailSend ∉ es) ∧
        ∀ k, cfgW.resendKey = some k → Effect.emailSend ∈ es) :=
  ⟨rfl, rfl, rfl,
   by simp [fetch_market_data, processTicker, tickW, dataW],
   claim_C8 cfgW rfl fileW dataW none none [tickW] rfl rfl
     (by simp [fetch_market_data, processTicker, tickW, dataW])⟩

/-- Sixteen articles with titles: more than the 15 the request asks
for, which a provider not honouring the `size` parameter could
return. -/
def articles16 : List Article :=
  List.replicate 16 { title := some "headline", source_id := some "src" }

/-- C9 counterexample: `fetch_news` does not truncate the response; a
response with 16 titled articles yields 16 headlines, more than 15. -/
theorem claim_C9_counterexample :
    ¬ (fetch_news (some "key") (some articles16)).length ≤ 15 := by
  decide

/-- C9 (amended): `fetch_news` returns at most one headline per article
of the response, so whenever the provider honours the requested
`size = 15` (at most 15 results), the headline list has at most 15
entries; the code itself enforces no cap. -/
theorem claim_C9 (newsKey : Option String) (resp : Option (List Article))
    (h : ∀ articles, resp = some articles → articles.length ≤ 15) :
    (fetch_news newsKey resp).length ≤ 15 := by
  cases newsKey with
  | none => simp [fetch_news]
  | some k =>
    cases hr : resp with
    | none => simp [fetch_news]
    | some articles =>
      have hlen := h articles hr
      simp only [fetch_news]
      exact le_trans (List.length_filterMap_le _ _) hlen

/-- A single-article response for the C9 witness. -/
def articlesW : List Article := [{ title := some "headline", source_id := some "src" }]

theorem claim_C9_witness :
    (∀ articles, some articlesW = some articles → articles.length ≤ 15) ∧
    (fetch_news (some "key") (some articlesW)).length ≤ 15 :=
  ⟨fun articles ha => by cases ha; decide,
   claim_C9 (some "key") (some articlesW)
     (fun articles ha => by cases ha; decide)⟩

end Top50
